import Mathlib

/-
Verification of the PinyinTester scheduling and answer-assessment engine.

The definitions below are a shallow embedding of the Python sources
(pinyinTester.py, chineseDatabase.py, database.py, baseClasses.py):
  * machine floats are modelled as rationals,
  * timestamps (strings of the form YYYY-MM-DD HH:MM:SS, with the literal
    sentinel "0" meaning "never") are modelled by the `TimeStr` type, a
    valid timestamp being identified with its epoch-second value,
  * fallible Python code (raised exceptions) returns Option/Except,
  * the SQLite store is modelled as in-memory lists of rows, SQL queries
    as list filters and folds.
-/

namespace PinyinTester

/-- baseClasses.py: the `ANSWER_STATE` enumeration. -/
inductive ANSWER_STATE where
  | CORRECT
  | WRONG
  | HOMONYM
deriving DecidableEq, Repr

/-- baseClasses.py: the `QUALITY` enumeration used by the SM-2 algorithm. -/
inductive QUALITY where
  | FIVE
  | FOUR
  | THREE
  | TWO
  | ONE
  | ZERO
deriving DecidableEq, Repr

/-- Modelled from the spec: the `HSK_LEVEL` enumeration lives in
chineseClasses.py which is not among the provided sources; it enumerates the
seven HSK bands used as keys of `ChineseDB.bands`. -/
inductive HSK_LEVEL where
  | HSK_1
  | HSK_2
  | HSK_3
  | HSK_4
  | HSK_5
  | HSK_6
  | HSK_7_9
deriving DecidableEq, Repr

/-- A timestamp field as stored in the database: either the literal sentinel
string "0" ("never"), or a well-formed `YYYY-MM-DD HH:MM:SS` string identified
with its value in epoch seconds. -/
inductive TimeStr where
  | never
  | valid (secs : ℤ)
deriving DecidableEq, Repr

/-- pinyinTester.py `Model.DIACRITIC_TO_TONE`: maps a diacritic-marked vowel
to its tone number; `none` models absence from the dict (`dict.get`). -/
def DIACRITIC_TO_TONE (c : Char) : Option Nat :=
  match c with
  | 'ā' | 'ē' | 'ī' | 'ō' | 'ū' | 'ǖ'
  | 'Ā' | 'Ē' | 'Ī' | 'Ō' | 'Ū' | 'Ǖ' => some 1
  | 'á' | 'é' | 'í' | 'ó' | 'ú' | 'ǘ'
  | 'Á' | 'É' | 'Í' | 'Ó' | 'Ú' | 'Ǘ' => some 2
  | 'ǎ' | 'ě' | 'ǐ' | 'ǒ' | 'ǔ' | 'ǚ'
  | 'Ǎ' | 'Ě' | 'Ǐ' | 'Ǒ' | 'Ǔ' | 'Ǚ' => some 3
  | 'à' | 'è' | 'ì' | 'ò' | 'ù' | 'ǜ'
  | 'À' | 'È' | 'Ì' | 'Ò' | 'Ù' | 'Ǜ' => some 4
  | _ => none

/-- pinyinTester.py `Model.TONE1_DIACRITICS_TO_VOWEL` (only ever applied to
tone-1 diacritics; the catch-all branch is unreachable there). -/
def TONE1_DIACRITICS_TO_VOWEL (c : Char) : Char :=
  match c with
  | 'ā' => 'a' | 'ē' => 'e' | 'ī' => 'i' | 'ō' => 'o' | 'ū' => 'u' | 'ǖ' => 'v'
  | 'Ā' => 'A' | 'Ē' => 'E' | 'Ī' => 'I' | 'Ō' => 'O' | 'Ū' => 'U' | 'Ǖ' => 'V'
  | _ => c

/-- pinyinTester.py `Model.TONE2_DIACRITICS_TO_VOWEL`. -/
def TONE2_DIACRITICS_TO_VOWEL (c : Char) : Char :=
  match c with
  | 'á' => 'a' | 'é' => 'e' | 'í' => 'i' | 'ó' => 'o' | 'ú' => 'u' | 'ǘ' => 'v'
  | 'Á' => 'A' | 'É' => 'E' | 'Í' => 'I' | 'Ó' => 'O' | 'Ú' => 'U' | 'Ǘ' => 'V'
  | _ => c

/-- pinyinTester.py `Model.TONE3_DIACRITICS_TO_VOWEL`. -/
def TONE3_DIACRITICS_TO_VOWEL (c : Char) : Char :=
  match c with
  | 'ǎ' => 'a' | 'ě' => 'e' | 'ǐ' => 'i' | 'ǒ' => 'o' | 'ǔ' => 'u' | 'ǚ' => 'v'
  | 'Ǎ' => 'A' | 'Ě' => 'E' | 'Ǐ' => 'I' | 'Ǒ' => 'O' | 'Ǔ' => 'U' | 'Ǚ' => 'V'
  | _ => c

/-- pinyinTester.py `Model.TONE4_DIACRITICS_TO_VOWEL`. -/
def TONE4_DIACRITICS_TO_VOWEL (c : Char) : Char :=
  match c with
  | 'à' => 'a' | 'è' => 'e' | 'ì' => 'i' | 'ò' => 'o' | 'ù' => 'u' | 'ǜ' => 'v'
  | 'À' => 'A' | 'È' => 'E' | 'Ì' => 'I' | 'Ò' => 'O' | 'Ù' => 'U' | 'Ǜ' => 'V'
  | _ => c

/-- The `while` loop of `Model.convertDiacriticToNumber` (pinyinTester.py
lines 470-490): copies characters until the first diacritic, converts that one
to its plain vowel, appends the remainder unchanged and stops.  Returns the
accumulated characters together with the final value of the `tone` variable
(`none` when the loop ran to completion without finding a diacritic). -/
def convertLoop : List Char → List Char × Option Nat
  | [] => ([], none)
  | c :: rest =>
    match DIACRITIC_TO_TONE c with
    | none =>
      let (r, t) := convertLoop rest
      (c :: r, t)
    | some 1 => (TONE1_DIACRITICS_TO_VOWEL c :: rest, some 1)
    | some 2 => (TONE2_DIACRITICS_TO_VOWEL c :: rest, some 2)
    | some 3 => (TONE3_DIACRITICS_TO_VOWEL c :: rest, some 3)
    | some 4 => (TONE4_DIACRITICS_TO_VOWEL c :: rest, some 4)
    | some t => (rest, some t)

/-- pinyinTester.py `Model.convertDiacriticToNumber` (lines 467-493).
On the empty string the Python loop body never runs, so the local variable
`tone` is never bound and the final `if tone is None` raises
UnboundLocalError: that raise is modelled by `none`. -/
def convertDiacriticToNumber (pinyin : String) : Option String :=
  if pinyin.data = [] then
    none
  else
    let (result, t) := convertLoop pinyin.data
    let tone : Nat := match t with | none => 5 | some n => n
    some (String.mk (result ++ [Nat.digitChar tone]))

/-- Python `str.lower` restricted to the alphabet this program manipulates:
ASCII letters plus the uppercase diacritic vowels of the tone tables. -/
def pyLower (c : Char) : Char :=
  match c with
  | 'Ā' => 'ā' | 'Ē' => 'ē' | 'Ī' => 'ī' | 'Ō' => 'ō' | 'Ū' => 'ū' | 'Ǖ' => 'ǖ'
  | 'Á' => 'á' | 'É' => 'é' | 'Í' => 'í' | 'Ó' => 'ó' | 'Ú' => 'ú' | 'Ǘ' => 'ǘ'
  | 'Ǎ' => 'ǎ' | 'Ě' => 'ě' | 'Ǐ' => 'ǐ' | 'Ǒ' => 'ǒ' | 'Ǔ' => 'ǔ' | 'Ǚ' => 'ǚ'
  | 'À' => 'à' | 'È' => 'è' | 'Ì' => 'ì' | 'Ò' => 'ò' | 'Ù' => 'ù' | 'Ǜ' => 'ǜ'
  | _ => c.toLower

/-- Python `s.lower()` lifted to strings. -/
def pyLowerStr (s : String) : String :=
  String.mk (s.data.map pyLower)

/-- Python `s.replace(' ', '')`: removes exactly the space character. -/
def stripSpaces (s : String) : String :=
  String.mk (s.data.filter (fun c => c ≠ ' '))

/-- The `ignoreTones` lambda of `Model.checkAnswer` (line 563): keeps the
characters for which `c.isdigit()` is false. -/
def stripDigits (s : String) : String :=
  String.mk (s.data.filter (fun c => !c.isDigit))

/-- The pronunciation field after BeautifulSoup parsing: the list of the
`.string` values of its span elements, in document order.  A span whose
content is not a single text node (for example `span` with empty content) has
`.string` equal to Python `None`, modelled by `none`. -/
abbrev Markup := List (Option String)

/-- pinyinTester.py `Model.getPinyinBetweenTags` (lines 495-501): concatenates
`convertDiacriticToNumber` of every span string.  Passing a `None` span string
to `convertDiacriticToNumber` raises (TypeError on `len`), modelled by `none`;
a raise inside `convertDiacriticToNumber` itself also propagates. -/
def getPinyinBetweenTags : Markup → Option String
  | [] => some ""
  | none :: _ => none
  | some s :: rest =>
    match convertDiacriticToNumber s with
    | none => none
    | some a =>
      match getPinyinBetweenTags rest with
      | none => none
      | some b => some (a ++ b)

/-- The `l` lambda of `Model.checkAnswer` (pinyinTester.py lines 562-565):
identity, or digit removal when `ignoreTones` is set. -/
def toneFilter (ignoreTones : Bool) (s : String) : String :=
  if ignoreTones then stripDigits s else s

/-- Line 568 of pinyinTester.py: `l(userInput.lower().replace(' ',''))`. -/
def normalizeInput (ignoreTones : Bool) (userInput : String) : String :=
  toneFilter ignoreTones (stripSpaces (pyLowerStr userInput))

/-- The homonym loop of `Model.checkAnswer` (lines 574-577): scans the
phrases sharing the current logograph in order, comparing the normalized user
input with each one's lower-cased tone-numbered pronunciation.  A raise while
extracting a sibling's pronunciation propagates (`none`). -/
def scanSiblings (i : String) (ignoreTones : Bool) : List Markup → Option ANSWER_STATE
  | [] => some .WRONG
  | p :: rest =>
    match getPinyinBetweenTags p with
    | none => none
    | some s =>
      if i = toneFilter ignoreTones (pyLowerStr s) then some .HOMONYM
      else scanSiblings i ignoreTones rest

/-- pinyinTester.py `Model.checkAnswer` (lines 559-581), restricted to the
returned `ANSWER_STATE` (the database side effects are modelled separately by
`updatePhrase` and `insertResponseTime`).  `cur` is the current phrase's
pronunciation markup and `sibs` the pronunciation markups of
`phrasesWithSameLogographs`, in their stored order. -/
def checkAnswer (userInput : String) (ignoreTones : Bool) (cur : Markup)
    (sibs : List Markup) : Option ANSWER_STATE :=
  let i := normalizeInput ignoreTones userInput
  match getPinyinBetweenTags cur with
  | none => none
  | some e =>
    if i = toneFilter ignoreTones (pyLowerStr e) then some .CORRECT
    else scanSiblings i ignoreTones sibs

/-- pinyinTester.py `Model.updateEaseFactor` (lines 521-538); the Python
`case _` default is unreachable since `QUALITY` has exactly six members. -/
def updateEaseFactor (oldEaseFactor : ℚ) (quality : QUALITY) : ℚ :=
  match quality with
  | .FIVE => max (13/10) (oldEaseFactor + 10/100)
  | .FOUR => max (13/10) (oldEaseFactor + 0)
  | .THREE => max (13/10) (oldEaseFactor - 14/100)
  | .TWO => max (13/10) (oldEaseFactor - 32/100)
  | .ONE => max (13/10) (oldEaseFactor - 54/100)
  | .ZERO => max (13/10) (oldEaseFactor - 80/100)

/-- Python `int()` on a float: truncation toward zero. -/
def pyInt (q : ℚ) : ℤ :=
  if 0 ≤ q then ⌊q⌋ else ⌈q⌉

/-- Lines 550-553 of pinyinTester.py: `delta = odd - lts` as a Python
`timedelta` (`days` is the floor division by 86400, `seconds` the nonnegative
remainder), then `interval = delta.days + round(delta.seconds / 86400)`.
`round` is banker's rounding; on the half-open range `[0, 1)` of
`delta.seconds / 86400` it yields 1 exactly when the remainder exceeds 43200
seconds (`round(0.5) = 0`). -/
def intervalDays (lts odd : ℤ) : ℤ :=
  let delta := odd - lts
  delta.fdiv 86400 + (if delta.emod 86400 ≤ 43200 then 0 else 1)

/-- pinyinTester.py `Model.updateDueDate` (lines 540-557), with `now` the
current time in epoch seconds and the result the returned datetime in epoch
seconds (one day being 86400 seconds). -/
def updateDueDate (now : ℤ) (lastTimeSeen oldDueDate : TimeStr)
    (oldEaseFactor : ℚ) (quality : QUALITY) : ℤ :=
  if quality = .ZERO ∨ quality = .ONE ∨ quality = .TWO then
    now + 86400
  else
    match lastTimeSeen, oldDueDate with
    | .valid lts, .valid odd =>
      let newEase := updateEaseFactor oldEaseFactor quality
      let interval := intervalDays lts odd
      if interval = 1 then now + 6 * 86400
      else now + pyInt (interval * newEase) * 86400
    | _, _ => now + 86400

/-- pinyinTester.py `Model._assessQuality` (lines 365-416).  `delta` is the
measured elapsed time in seconds, `avg` and `std` the population mean and
standard deviation handed back by the storage collaborator
(`getResponseTimeAverage`, square root of `getResponseTimeVariance`), `num`
the sample count, and `numDifferentAnswers` the length of
`getPhrasesWithSamePinyin` for the current phrase. -/
def assessQuality (answerState : ANSWER_STATE) (delta avg std : ℚ)
    (num : ℕ) (numDifferentAnswers : ℕ) : QUALITY :=
  match answerState with
  | .CORRECT =>
    if num ≥ 100 then
      if delta ≤ avg - std then .FIVE
      else if delta ≤ avg + std then .FOUR
      else .THREE
    else .FOUR
  | .HOMONYM =>
    if num ≥ 100 then
      if delta ≤ avg - std then .FOUR
      else .THREE
    else .THREE
  | .WRONG =>
    if numDifferentAnswers > 0 then
      if num ≥ 100 then
        if delta ≤ avg - std then .TWO
        else .ONE
      else .ONE
    else .ZERO

/-- One row of the `chinesePhrases` table (schema in
chineseDatabase.py `ChineseDB.initializeDB`). -/
structure PhraseRow where
  id : ℕ
  band : String
  ordinalID : ℕ
  simplified : String
  traditional : String
  pinyin : String
  english : String
  classifier : String
  taiwanPinyin : String
  wordsWithSamePinyin : String
  timesSeen : ℕ
  timesCorrect : ℕ
  lastTimeSeen : TimeStr
  lastTimeCorrect : TimeStr
  dueDate : TimeStr
  easeFactor : ℚ
  deleted : Bool
deriving DecidableEq, Repr

/-- One row of the `responseTimes` table; `responseID` models the
autoincremented primary key. -/
structure ResponseRow where
  responseID : ℕ
  chinesePhraseID : ℕ
  timeStamp : ℤ
  responseTime : ℚ
deriving DecidableEq, Repr

/-- The SQLite store: the two tables of `ChineseDB.initializeDB`. -/
structure DB where
  phrases : List PhraseRow
  responseTimes : List ResponseRow
deriving DecidableEq, Repr

/-- chineseDatabase.py `ChineseDB.bands`. -/
def bands (level : HSK_LEVEL) : String :=
  match level with
  | .HSK_1 => "hsk1"
  | .HSK_2 => "hsk2"
  | .HSK_3 => "hsk3"
  | .HSK_4 => "hsk4"
  | .HSK_5 => "hsk5"
  | .HSK_6 => "hsk6"
  | .HSK_7_9 => "hsk7-9"

/-- chineseDatabase.py `ChineseDB.getPhrases` (lines 253-297): rows of the
level's band with ordinal at most the bound and `deleted = 0`. -/
def getPhrases (db : DB) (level : HSK_LEVEL) (maxOrdinalID : ℕ) : List PhraseRow :=
  db.phrases.filter (fun r =>
    r.band = bands level ∧ r.ordinalID ≤ maxOrdinalID ∧ r.deleted = false)

/-- chineseDatabase.py `ChineseDB.getPhrasesWithSameLogographs`
(lines 152-201). -/
def getPhrasesWithSameLogographs (db : DB) (simplified : String)
    (originalID : ℕ) : List PhraseRow :=
  db.phrases.filter (fun r =>
    r.simplified = simplified ∧ r.id ≠ originalID ∧ r.deleted = false)

/-- chineseDatabase.py `ChineseDB.getPhrasesWithSamePinyin`
(lines 203-251). -/
def getPhrasesWithSamePinyin (db : DB) (pinyin : String)
    (originalID : ℕ) : List PhraseRow :=
  db.phrases.filter (fun r =>
    r.pinyin = pinyin ∧ r.id ≠ originalID ∧ r.deleted = false)

/-- chineseDatabase.py `ChineseDB.getResponseTimeCount`:
`SELECT COUNT(1) FROM responseTimes` — no deletion filter. -/
def getResponseTimeCount (db : DB) : ℕ :=
  db.responseTimes.length

/-- chineseDatabase.py `ChineseDB.getResponseTimeAverage` (lines 100-113):
`SELECT AVG(responseTime) FROM responseTimes` — no deletion filter; the NULL
result on an empty table (converted to NaN by the Python wrapper) is modelled
by `none`. -/
def getResponseTimeAverage (db : DB) : Option ℚ :=
  if db.responseTimes = [] then none
  else some ((db.responseTimes.map (fun r => r.responseTime)).sum
              / (db.responseTimes.length : ℚ))

/-- chineseDatabase.py `ChineseDB.getResponseTimeVariance` (lines 126-150):
the average squared deviation from the average, over all of `responseTimes` —
no deletion filter; NULL/NaN on an empty table is modelled by `none`. -/
def getResponseTimeVariance (db : DB) : Option ℚ :=
  if db.responseTimes = [] then none
  else
    let n : ℚ := db.responseTimes.length
    let avg := (db.responseTimes.map (fun r => r.responseTime)).sum / n
    some ((db.responseTimes.map (fun r =>
            (r.responseTime - avg) * (r.responseTime - avg))).sum / n)

/-- Errors raised by the database layer. -/
inductive DBErr where
  | notImplementedError
deriving DecidableEq, Repr

/-- database.py `Database.getPhrasesDueToday` (lines 133-135): the base class
raises NotImplementedError, and `ChineseDB` (chineseDatabase.py) never
overrides it, so every call on a `ChineseDB` raises. -/
def getPhrasesDueToday (_db : DB) (_level : HSK_LEVEL) (_maxOrdinalID : ℕ)
    (_limit : Option ℕ) : Except DBErr (List PhraseRow) :=
  .error .notImplementedError

/-- Errors escaping `Model.getRandomPhraseInLevel`. -/
inductive SelErr where
  | notImplementedError
  | indexError
deriving DecidableEq, Repr

/-- pinyinTester.py `Model.getRandomPhraseInLevel` (lines 604-621), with the
two random draws made explicit: `draw` is the value of `random.random()`
(in `[0, 1)`) tested against `newUnseenCardChance`, and `choiceIx` selects the
element `random.choice` picks (uniform over the pool, modelled by an arbitrary
index taken modulo the pool size). -/
def getRandomPhraseInLevel (db : DB) (level : HSK_LEVEL) (maximumBound : ℕ)
    (newUnseenCardChance : ℚ) (draw : ℚ) (choiceIx : ℕ) :
    Except SelErr PhraseRow :=
  let duePool : Except SelErr (List PhraseRow) :=
    if draw ≥ newUnseenCardChance then
      match getPhrasesDueToday db level maximumBound none with
      | .error _ => .error .notImplementedError
      | .ok ps => .ok ps
    else .ok []
  match duePool with
  | .error e => .error e
  | .ok phrases =>
    let pool := if phrases.length = 0 then getPhrases db level maximumBound
                else phrases
    if h : pool.length = 0 then .error .indexError
    else .ok (pool.get ⟨choiceIx % pool.length, Nat.mod_lt _ (Nat.pos_of_ne_zero h)⟩)

/-- chineseDatabase.py `ChineseDB.updatePhrase` (lines 399-446) applied to a
single matching row: both UPDATE statements add `int(wasCorrect)` to
`timesCorrect`, set `lastTimeSeen` to the formatted `lastTimeCorrect`
argument, and store the due date and ease factor; only the `wasCorrect`
branch also sets the `lastTimeCorrect` column.  Neither statement touches
`timesSeen`. -/
def updatePhraseRow (r : PhraseRow) (wasCorrect : Bool)
    (lastTimeCorrect : ℤ) (dueDate : ℤ) (easeFactor : ℚ) : PhraseRow :=
  if wasCorrect then
    { r with timesCorrect := r.timesCorrect + 1
           , lastTimeSeen := .valid lastTimeCorrect
           , lastTimeCorrect := .valid lastTimeCorrect
           , dueDate := .valid dueDate
           , easeFactor := easeFactor }
  else
    { r with timesCorrect := r.timesCorrect + 0
           , lastTimeSeen := .valid lastTimeCorrect
           , dueDate := .valid dueDate
           , easeFactor := easeFactor }

/-- chineseDatabase.py `ChineseDB.updatePhrase` on the whole table
(`WHERE id = :_id`). -/
def updatePhrase (db : DB) (id : ℕ) (wasCorrect : Bool)
    (lastTimeCorrect : ℤ) (dueDate : ℤ) (easeFactor : ℚ) : DB :=
  { db with phrases := db.phrases.map (fun r =>
      if r.id = id then updatePhraseRow r wasCorrect lastTimeCorrect dueDate easeFactor
      else r) }

/-- chineseDatabase.py `ChineseDB.insertResponseTime` (lines 379-397):
appends one row to `responseTimes`, the autoincrement key modelled by the
current table length. -/
def insertResponseTime (db : DB) (id : ℕ) (timeStamp : ℤ)
    (responseTime : ℚ) : DB :=
  { db with responseTimes := db.responseTimes
      ++ [⟨db.responseTimes.length, id, timeStamp, responseTime⟩] }

/-- The constant part of the ValueError message of `Model.__init__`
(pinyinTester.py line 354); the f-string appends the offending value. -/
def VALID_CHANCE_MESSAGE : String :=
  "New unseen card chance must be between 0 and 1 (0 <= chance <= 1). Given: "

/-- The validation in `Model.__init__` (pinyinTester.py lines 353-355):
raises ValueError exactly when `newUnseenCardChance >= 1`, otherwise the
value is stored unchanged. -/
def modelInit (newUnseenCardChance : ℚ) : Except String ℚ :=
  if newUnseenCardChance ≥ 1 then .error VALID_CHANCE_MESSAGE
  else .ok newUnseenCardChance

/-- The new-unseen-card branch of `Model.getRandomPhraseInLevel` fires when
the guard `random.random() >= self.newUnseenCardChance` (line 608) is false,
skipping the due-today pool. -/
def newUnseenBranchFires (draw newUnseenCardChance : ℚ) : Prop :=
  ¬(draw ≥ newUnseenCardChance)

/-- Spec side (claim C2): the quality-indexed ease adjustment table. -/
def easeDelta (quality : QUALITY) : ℚ :=
  match quality with
  | .FIVE => 10/100
  | .FOUR => 0
  | .THREE => -(14/100)
  | .TWO => -(32/100)
  | .ONE => -(54/100)
  | .ZERO => -(80/100)

/-- Spec side (claim C1, amended): the rescheduling rule as the claim states
it — failing quality or a "never" sentinel gives one day; otherwise the
day-rounded interval between the old due date and the last viewing drives the
next interval, with 6 days at interval 1 and otherwise
`int(interval * newEase)` days, the product truncated toward zero. -/
def specNewDueDate (now : ℤ) (lastTimeSeen oldDueDate : TimeStr)
    (oldEaseFactor : ℚ) (quality : QUALITY) : ℤ :=
  if (quality = .ZERO ∨ quality = .ONE ∨ quality = .TWO)
      ∨ lastTimeSeen = .never ∨ oldDueDate = .never then
    now + 86400
  else
    match lastTimeSeen, oldDueDate with
    | .valid lts, .valid odd =>
      let newEase := updateEaseFactor oldEaseFactor quality
      let interval := intervalDays lts odd
      if interval = 1 then now + 6 * 86400
      else now + pyInt (interval * newEase) * 86400
    | _, _ => now + 86400

/-- Spec side (claim C4): the quality-policy table, dispatching first on
sample-count sufficiency as the claim states it. -/
def specAssess (outcome : ANSWER_STATE) (elapsed mean std : ℚ)
    (sampleCount : ℕ) (hasAlternates : Bool) : QUALITY :=
  if sampleCount < 100 then
    match outcome with
    | .CORRECT => .FOUR
    | .HOMONYM => .THREE
    | .WRONG => if hasAlternates then .ONE else .ZERO
  else
    match outcome with
    | .CORRECT =>
      if elapsed ≤ mean - std then .FIVE
      else if elapsed ≤ mean + std then .FOUR
      else .THREE
    | .HOMONYM =>
      if elapsed ≤ mean - std then .FOUR
      else .THREE
    | .WRONG =>
      if hasAlternates then
        if elapsed ≤ mean - std then .TWO else .ONE
      else .ZERO

/-- Spec side (claim C3): equality of strings "case- and
whitespace-insensitively" — both sides lower-cased and space-stripped. -/
def claimCaseSpaceInsensitiveEq (a b : String) : Prop :=
  stripSpaces (pyLowerStr a) = stripSpaces (pyLowerStr b)

/-- A live `hsk1` phrase used in concrete evaluations. -/
def exPhraseLive : PhraseRow :=
  { id := 2, band := "hsk1", ordinalID := 1, simplified := "他",
    traditional := "", pinyin := "ta1", english := "he", classifier := "",
    taiwanPinyin := "", wordsWithSamePinyin := "", timesSeen := 7,
    timesCorrect := 3, lastTimeSeen := .never, lastTimeCorrect := .never,
    dueDate := .never, easeFactor := 5/2, deleted := false }

/-- A soft-deleted phrase used in concrete evaluations. -/
def exPhraseDeleted : PhraseRow :=
  { exPhraseLive with
    id := 1, simplified := "她", pinyin := "ta1d",
    deleted := true }

/-- A store holding one soft-deleted and one live phrase, with one recorded
response time for each (10 seconds for the deleted phrase, 2 for the live
one). -/
def exDB : DB :=
  { phrases := [exPhraseDeleted, exPhraseLive],
    responseTimes := [⟨0, 1, 0, 10⟩, ⟨1, 2, 0, 2⟩] }

/-- `exDB` with the soft-deleted phrase's response-time sample removed. -/
def exDBNoDeletedSample : DB :=
  { phrases := [exPhraseDeleted, exPhraseLive],
    responseTimes := [⟨1, 2, 0, 2⟩] }

/-- On a character list without diacritics the conversion loop copies the
input and leaves `tone` unset. -/
lemma convertLoop_no_diacritic (cs : List Char)
    (h : ∀ c ∈ cs, DIACRITIC_TO_TONE c = none) :
    convertLoop cs = (cs, none) := by
  induction cs with
  | nil => rfl
  | cons c rest ih =>
    have hc : DIACRITIC_TO_TONE c = none := h c (List.mem_cons_self _ _)
    have hr := ih (fun x hx => h x (List.mem_cons_of_mem _ hx))
    simp [convertLoop, hc, hr]

/-- `convertDiacriticToNumber` returns a value on every non-empty string. -/
lemma convertDiacriticToNumber_isSome (s : String) (h : s ≠ "") :
    (convertDiacriticToNumber s).isSome = true := by
  obtain ⟨l⟩ := s
  have hl : l ≠ [] := by
    intro he
    exact h (by rw [he])
  simp [convertDiacriticToNumber, hl]

/-- `getPinyinBetweenTags` returns a value when every span carries a
non-empty string. -/
lemma getPinyinBetweenTags_isSome (m : Markup)
    (hm : ∀ x ∈ m, ∃ t : String, x = some t ∧ t ≠ "") :
    (getPinyinBetweenTags m).isSome = true := by
  induction m with
  | nil => rfl
  | cons x rest ih =>
    obtain ⟨t, hx, ht⟩ := hm x (List.mem_cons_self _ _)
    subst hx
    have h1 := convertDiacriticToNumber_isSome t ht
    have h2 := ih (fun y hy => hm y (List.mem_cons_of_mem _ hy))
    rw [Option.isSome_iff_exists] at h1 h2
    obtain ⟨a, ha⟩ := h1
    obtain ⟨b, hb⟩ := h2
    simp [getPinyinBetweenTags, ha, hb]

/-- C2: for every starting ease factor and every quality,
`updateEaseFactor(e, q) = max(1.3, e + delta(q))` with the SM-2 delta table,
and the returned ease factor is always at least 1.3.  (Proved for all
rational `e`, which subsumes the claim's restriction to `e ≥ 1.3`.) -/
theorem updateEaseFactor_matchesTable :
    ∀ (e : ℚ) (q : QUALITY),
      updateEaseFactor e q = max (13/10) (e + easeDelta q)
      ∧ (13/10 : ℚ) ≤ updateEaseFactor e q := by
  intro e q
  cases q <;>
    exact ⟨by simp [updateEaseFactor, easeDelta, sub_eq_add_neg],
           le_max_left _ _⟩

/-- C9: on a non-empty syllable containing no diacritic-marked vowel,
`convertDiacriticToNumber` returns exactly the input with the digit 5
appended. -/
theorem convertDiacriticToNumber_plainSyllable (s : String) (hne : s ≠ "")
    (h : ∀ c ∈ s.data, DIACRITIC_TO_TONE c = none) :
    convertDiacriticToNumber s = some (s ++ "5") := by
  obtain ⟨l⟩ := s
  have hl : l ≠ [] := by
    intro he
    exact hne (by rw [he])
  simp only [convertDiacriticToNumber, hl, if_neg, ite_false]
  rw [convertLoop_no_diacritic l h]
  rfl

/-- Witness for C9 at the plain syllable "ma". -/
theorem convertDiacriticToNumber_plainSyllable_witness :
    convertDiacriticToNumber "ma" = some "ma5" :=
  convertDiacriticToNumber_plainSyllable "ma" (by decide) (by decide)

/-- C8 counterexample: on the empty string the Python loop never binds the
local variable `tone`, so `convertDiacriticToNumber("")` raises
UnboundLocalError (modelled by `none`) instead of returning — the claimed
totality on every string fails. -/
theorem convertDiacriticToNumber_emptyRaises :
    convertDiacriticToNumber "" = none := by decide

/-- C8 amended: `convertDiacriticToNumber` is total on every non-empty
string, and `getPinyinBetweenTags` is total on markup whose spans each carry
a non-empty text string; markup with no tone spans yields the empty
string. -/
theorem normalizer_totality (s : String) (m : Markup) (hs : s ≠ "")
    (hm : ∀ x ∈ m, ∃ t : String, x = some t ∧ t ≠ "") :
    (convertDiacriticToNumber s).isSome = true
    ∧ (getPinyinBetweenTags m).isSome = true
    ∧ getPinyinBetweenTags [] = some "" :=
  ⟨convertDiacriticToNumber_isSome s hs, getPinyinBetweenTags_isSome m hm, rfl⟩

/-- Witness for C8 (amended) at a one-character syllable and a one-span
markup. -/
theorem normalizer_totality_witness :
    (convertDiacriticToNumber "a").isSome = true
    ∧ (getPinyinBetweenTags [some "b"]).isSome = true
    ∧ getPinyinBetweenTags [] = some "" :=
  normalizer_totality "a" [some "b"] (by decide)
    (fun x hx => ⟨"b", by simpa using hx, by decide⟩)

/-- C1 counterexample: quality 4, ease factor 2.5, a three-day gap between
`lastTimeSeen` and the old due date.  The interval is 3 and the new ease is
2.5, so the claim prescribes `now + 3 * 2.5` days = 648000 seconds, but the
code truncates `int(interval * newEase)` to 7 whole days and returns
604800 seconds. -/
theorem updateDueDate_claimCounterexample :
    updateDueDate 0 (.valid 0) (.valid 259200) (5/2) .FOUR = 604800
    ∧ intervalDays 0 259200 = 3
    ∧ ((3 : ℚ) * updateEaseFactor (5/2) .FOUR) * 86400 = 648000
    ∧ (604800 : ℤ) ≠ 648000 := by
  refine ⟨?_, by decide, ?_, by decide⟩
  · norm_num [updateDueDate, intervalDays, updateEaseFactor, pyInt,
      Int.fdiv, Int.emod]
    decide
  · norm_num [updateEaseFactor]

/-- C1 amended: `updateDueDate` returns now + 1 day on failing quality or a
"never" sentinel; otherwise, with `interval` the day-rounded difference of
the old due date and the last viewing, it returns now + 6 days when the
interval is 1 and now + `int(interval * newEase)` days (the product truncated
toward zero) otherwise. -/
theorem updateDueDate_followsAmendedRule :
    ∀ (now : ℤ) (l o : TimeStr) (e : ℚ) (q : QUALITY),
      updateDueDate now l o e q = specNewDueDate now l o e q := by
  intro now l o e q
  by_cases hq : q = .ZERO ∨ q = .ONE ∨ q = .TWO
  · simp [updateDueDate, specNewDueDate, hq]
  · cases l <;> cases o <;> simp [updateDueDate, specNewDueDate, hq]

/-- C10: construction rejects (ValueError) exactly the chances at least 1
and succeeds for every chance strictly below 1, negative values included;
for a negative chance the new-unseen-card branch of selection can never fire
since `random.random()` is nonnegative. -/
theorem modelInit_validation :
    ∀ chance : ℚ,
      ((modelInit chance = .error VALID_CHANCE_MESSAGE) ↔ 1 ≤ chance)
      ∧ ((∃ v, modelInit chance = .ok v) ↔ chance < 1)
      ∧ (chance < 0 → ∀ draw : ℚ, 0 ≤ draw → ¬ newUnseenBranchFires draw chance) := by
  intro chance
  refine ⟨?_, ?_, ?_⟩
  · unfold modelInit
    split_ifs with h
    · simpa using h
    · simp [lt_of_not_ge h, not_le.mp h]
  · unfold modelInit
    split_ifs with h
    · simp [not_lt.mpr h]
    · simp [not_le.mp h]
  · intro hneg draw hdraw
    unfold newUnseenBranchFires
    simp only [not_not, ge_iff_le]
    exact le_trans hneg.le hdraw

/-- Witness for C10 at the negative chance -1/2 and the draw 1/2. -/
theorem modelInit_validation_witness :
    (∃ v, modelInit (-(1/2)) = .ok v)
    ∧ ¬ newUnseenBranchFires (1/2) (-(1/2)) :=
  ⟨((modelInit_validation (-(1/2))).2.1).mpr (by norm_num),
   (modelInit_validation (-(1/2))).2.2 (by norm_num) (1/2) (by norm_num)⟩

/-- C4: `_assessQuality` realises the claimed policy table: below 100 samples
the fallback column applies regardless of elapsed time; at or above 100
samples the elapsed time is compared against mean - std and mean + std
exactly as tabulated, with WRONG capped at 0 when no alternate
same-pronunciation phrase exists. -/
theorem assessQuality_matchesPolicyTable :
    ∀ (o : ANSWER_STATE) (delta avg std : ℚ) (num numDifferentAnswers : ℕ),
      assessQuality o delta avg std num numDifferentAnswers
        = specAssess o delta avg std num (decide (0 < numDifferentAnswers)) := by
  intro o d a s n k
  cases o <;>
    simp only [assessQuality, specAssess, gt_iff_lt, decide_eq_true_eq] <;>
    split_ifs <;> first | rfl | omega

/-- C5 (evidence of the code bug): answering the concrete phrase
`exPhraseLive` (seen 7 times, 3 correct) correctly at time 1000 with due date
2000 stores `timesCorrect = 4`, `lastTimeSeen = lastTimeCorrect = 1000`, the
new due date and ease factor, and appends exactly one response-time row —
but leaves `timesSeen` at 7 instead of the claimed 8: neither UPDATE
statement of `ChineseDB.updatePhrase` touches the `timesSeen` column.
The incorrect-answer branch likewise updates `lastTimeSeen` but not
`lastTimeCorrect` and not `timesCorrect`. -/
theorem updatePhrase_neverIncrementsTimesSeen :
    (updatePhraseRow exPhraseLive true 1000 2000 (12/10)).timesSeen = 7
    ∧ (updatePhraseRow exPhraseLive true 1000 2000 (12/10)).timesSeen
        ≠ exPhraseLive.timesSeen + 1
    ∧ (updatePhraseRow exPhraseLive true 1000 2000 (12/10)).timesCorrect = 4
    ∧ (updatePhraseRow exPhraseLive true 1000 2000 (12/10)).lastTimeSeen = .valid 1000
    ∧ (updatePhraseRow exPhraseLive true 1000 2000 (12/10)).lastTimeCorrect = .valid 1000
    ∧ (updatePhraseRow exPhraseLive true 1000 2000 (12/10)).dueDate = .valid 2000
    ∧ (updatePhraseRow exPhraseLive true 1000 2000 (12/10)).easeFactor = 12/10
    ∧ (updatePhraseRow exPhraseLive false 1000 2000 (12/10)).timesSeen = 7
    ∧ (updatePhraseRow exPhraseLive false 1000 2000 (12/10)).timesCorrect = 3
    ∧ (updatePhraseRow exPhraseLive false 1000 2000 (12/10)).lastTimeSeen = .valid 1000
    ∧ (updatePhraseRow exPhraseLive false 1000 2000 (12/10)).lastTimeCorrect = .never
    ∧ (insertResponseTime exDB 2 5000 (7/2)).responseTimes.length
        = exDB.responseTimes.length + 1 := by
  norm_num [updatePhraseRow, insertResponseTime, exPhraseLive, exDB]

/-- C6 (evidence of the code bug): with chance 0.3 and draw 0.5 the guard
`random.random() >= newUnseenCardChance` holds, so selection calls
`getPhrasesDueToday`, which `ChineseDB` never overrides: the inherited stub
raises NotImplementedError even though the store holds an eligible phrase
(the fallback pool `getPhrases` is non-empty). -/
theorem getRandomPhrase_raisesNotImplemented :
    getRandomPhraseInLevel exDB .HSK_1 5 (3/10) (1/2) 0
      = .error .notImplementedError
    ∧ getPhrases exDB .HSK_1 5 = [exPhraseLive]
    ∧ getPhrasesDueToday exDB .HSK_1 5 none = .error .notImplementedError := by
  refine ⟨?_, ?_, rfl⟩
  · norm_num [getRandomPhraseInLevel, getPhrasesDueToday]
  · norm_num [getPhrases, exDB, exPhraseLive, exPhraseDeleted, bands]

/-- C7 counterexample: in the concrete store `exDB` the soft-deleted phrase
(id 1) has a recorded response time of 10 seconds; the statistics read by the
quality assessor still count it — the sample count is 2 and the mean 6,
whereas without the deleted phrase's sample they would be 1 and 2. -/
theorem responseStats_includeDeletedSamples :
    exPhraseDeleted.deleted = true
    ∧ (exDB.responseTimes.map (fun r => r.chinesePhraseID)) = [1, 2]
    ∧ getResponseTimeCount exDB = 2
    ∧ getResponseTimeAverage exDB = some 6
    ∧ getResponseTimeCount exDBNoDeletedSample = 1
    ∧ getResponseTimeAverage exDBNoDeletedSample = some 2
    ∧ getResponseTimeCount exDB ≠ getResponseTimeCount exDBNoDeletedSample := by
  refine ⟨by decide, by decide, by decide, ?_, by decide, ?_, by decide⟩
  · norm_num [getResponseTimeAverage, exDB]
    decide
  · norm_num [getResponseTimeAverage, exDBNoDeletedSample]

/-- C7 amended: soft-deleted records never appear in the results of the
phrase-selection and sibling queries (the due-today query is an unimplemented
stub that raises, returning no rows at all), while the response-time
statistics are aggregates over the whole `responseTimes` table and are
unaffected by the phrase table — in particular deletion flags do not remove
a phrase's recorded samples from them. -/
theorem softDeleted_excludedFromSelectionQueries :
    ∀ (db : DB) (level : HSK_LEVEL) (bound : ℕ) (simp pin : String)
      (oid : ℕ) (r : PhraseRow),
      (r ∈ getPhrases db level bound → r.deleted = false)
      ∧ (r ∈ getPhrasesWithSameLogographs db simp oid → r.deleted = false)
      ∧ (r ∈ getPhrasesWithSamePinyin db pin oid → r.deleted = false)
      ∧ (∀ (ph ph' : List PhraseRow) (rts : List ResponseRow),
          getResponseTimeCount ⟨ph, rts⟩ = getResponseTimeCount ⟨ph', rts⟩
          ∧ getResponseTimeAverage ⟨ph, rts⟩ = getResponseTimeAverage ⟨ph', rts⟩
          ∧ getResponseTimeVariance ⟨ph, rts⟩ = getResponseTimeVariance ⟨ph', rts⟩) := by
  intro db level bound s p oid r
  refine ⟨?_, ?_, ?_, fun ph ph' rts => ⟨rfl, rfl, rfl⟩⟩
  · intro h
    rw [getPhrases, List.mem_filter, decide_eq_true_eq] at h
    exact h.2.2.2
  · intro h
    rw [getPhrasesWithSameLogographs, List.mem_filter, decide_eq_true_eq] at h
    exact h.2.2.2
  · intro h
    rw [getPhrasesWithSamePinyin, List.mem_filter, decide_eq_true_eq] at h
    exact h.2.2.2

/-- Witness for C7 (amended): the live phrase of `exDB` is returned by the
level query and is indeed not soft-deleted. -/
theorem softDeleted_excludedFromSelectionQueries_witness :
    exPhraseLive.deleted = false :=
  (softDeleted_excludedFromSelectionQueries exDB .HSK_1 5 "x" "y" 0 exPhraseLive).1
    (by norm_num [getPhrases, exDB, exPhraseLive, exPhraseDeleted, bands])

/-- Characterisation of the homonym scan when every sibling's pronunciation
extracts successfully: it answers HOMONYM exactly when some sibling's
normalized pronunciation matches, WRONG exactly when none does, and never
CORRECT. -/
lemma scanSiblings_characterisation (i : String) (t : Bool) :
    ∀ (sibs : List Markup), (∀ p ∈ sibs, (getPinyinBetweenTags p).isSome = true) →
      (scanSiblings i t sibs = some .HOMONYM ↔
        ∃ p ∈ sibs, ∃ s, getPinyinBetweenTags p = some s
          ∧ i = toneFilter t (pyLowerStr s))
      ∧ (scanSiblings i t sibs = some .WRONG ↔
        ∀ p ∈ sibs, ∀ s, getPinyinBetweenTags p = some s
          → i ≠ toneFilter t (pyLowerStr s))
      ∧ scanSiblings i t sibs ≠ some .CORRECT := by
  intro sibs
  induction sibs with
  | nil =>
    intro _
    refine ⟨?_, ?_, ?_⟩ <;> simp [scanSiblings]
  | cons p rest ih =>
    intro h
    have hp := h p (List.mem_cons_self _ _)
    rw [Option.isSome_iff_exists] at hp
    obtain ⟨s, hs⟩ := hp
    have ihr := ih (fun q hq => h q (List.mem_cons_of_mem _ hq))
    by_cases he : i = toneFilter t (pyLowerStr s)
    · refine ⟨?_, ?_, ?_⟩
      · simp only [scanSiblings, hs, if_pos he]
        constructor
        · intro _
          exact ⟨p, List.mem_cons_self _ _, s, hs, he⟩
        · intro _
          trivial
      · simp only [scanSiblings, hs, if_pos he]
        constructor
        · intro hcon
          exact absurd hcon (by simp)
        · intro hall
          exact absurd he (hall p (List.mem_cons_self _ _) s hs)
      · simp [scanSiblings, hs, if_pos he]
    · refine ⟨?_, ?_, ?_⟩
      · simp only [scanSiblings, hs, if_neg he]
        rw [ihr.1]
        constructor
        · rintro ⟨q, hq, u, hu, hiu⟩
          exact ⟨q, List.mem_cons_of_mem _ hq, u, hu, hiu⟩
        · rintro ⟨q, hq, u, hu, hiu⟩
          rcases List.mem_cons.mp hq with hq | hq
          · subst hq
            rw [hs] at hu
            cases hu
            exact absurd hiu he
          · exact ⟨q, hq, u, hu, hiu⟩
      · simp only [scanSiblings, hs, if_neg he]
        rw [ihr.2.1]
        constructor
        · intro hall q hq u hu
          rcases List.mem_cons.mp hq with hq | hq
          · subst hq
            rw [hs] at hu
            cases hu
            exact he
          · exact hall q hq u hu
        · intro hall q hq u hu
          exact hall q (List.mem_cons_of_mem _ hq) u hu
      · simp only [scanSiblings, hs, if_neg he]
        exact ihr.2.2

/-- C3 counterexample: the phrase whose single span reads "a b" has the
tone-numbered pronunciation "a b5".  The input "ab5" equals it case- and
whitespace-insensitively, so the claim prescribes CORRECT, but `checkAnswer`
removes spaces only from the user input (never from the expected side) and
returns WRONG.  With `ignoreTones` set, the claim strips only trailing tone
digits, but the code's filter removes every digit: the input "1ab" (no
trailing digit) is nevertheless reduced to "ab" and accepted as CORRECT for
a phrase pronounced "ab5". -/
theorem checkAnswer_claimCounterexample :
    getPinyinBetweenTags [some "a b"] = some "a b5"
    ∧ claimCaseSpaceInsensitiveEq "ab5" "a b5"
    ∧ checkAnswer "ab5" false [some "a b"] [] = some .WRONG
    ∧ stripDigits "1ab" = "ab"
    ∧ checkAnswer "1ab" true [some "ab"] [] = some .CORRECT := by
  refine ⟨by decide, ?_, by decide, by decide, by decide⟩
  unfold claimCaseSpaceInsensitiveEq
  decide

/-- C3 amended: when the pronunciation of the current phrase and of every
sibling extracts successfully, `checkAnswer` returns CORRECT exactly when the
lower-cased, space-stripped (and, under `ignoreTones`, digit-stripped) input
equals the lower-cased (and digit-stripped) extracted pronunciation of the
current phrase — whose internal spaces are kept; otherwise HOMONYM exactly
when it equals some sibling's likewise-normalized pronunciation, the scan
visiting siblings in their given order; otherwise WRONG. -/
theorem checkAnswer_characterisation :
    ∀ (input : String) (tones : Bool) (cur : Markup) (sibs : List Markup)
      (e : String),
      getPinyinBetweenTags cur = some e →
      (∀ p ∈ sibs, (getPinyinBetweenTags p).isSome = true) →
      (checkAnswer input tones cur sibs = some .CORRECT
          ↔ normalizeInput tones input = toneFilter tones (pyLowerStr e))
      ∧ (checkAnswer input tones cur sibs = some .HOMONYM
          ↔ normalizeInput tones input ≠ toneFilter tones (pyLowerStr e)
            ∧ ∃ p ∈ sibs, ∃ s, getPinyinBetweenTags p = some s
                ∧ normalizeInput tones input = toneFilter tones (pyLowerStr s))
      ∧ (checkAnswer input tones cur sibs = some .WRONG
          ↔ normalizeInput tones input ≠ toneFilter tones (pyLowerStr e)
            ∧ ∀ p ∈ sibs, ∀ s, getPinyinBetweenTags p = some s
                → normalizeInput tones input ≠ toneFilter tones (pyLowerStr s)) := by
  intro input tones cur sibs e hcur hsibs
  have hscan := scanSiblings_characterisation (normalizeInput tones input) tones sibs hsibs
  have hck : checkAnswer input tones cur sibs
      = if normalizeInput tones input = toneFilter tones (pyLowerStr e)
        then some ANSWER_STATE.CORRECT
        else scanSiblings (normalizeInput tones input) tones sibs := by
    unfold checkAnswer
    rw [hcur]
  rw [hck]
  by_cases he : normalizeInput tones input = toneFilter tones (pyLowerStr e)
  · rw [if_pos he]
    refine ⟨?_, ?_, ?_⟩
    · simp [he]
    · simp [he]
    · simp [he]
  · rw [if_neg he]
    refine ⟨?_, ?_, ?_⟩
    · constructor
      · intro hcon
        exact absurd hcon hscan.2.2
      · intro h
        exact absurd h he
    · rw [hscan.1]
      simp [he]
    · rw [hscan.2.1]
      simp [he]

/-- Witness for C3 (amended): for the phrase pronounced "tā" (extracted as
"ta1") with no siblings, the input "ta1" is CORRECT. -/
theorem checkAnswer_characterisation_witness :
    checkAnswer "ta1" false [some "tā"] [] = some .CORRECT :=
  ((checkAnswer_characterisation "ta1" false [some "tā"] [] "ta1"
      (by decide) (by simp)).1).mpr (by decide)

end PinyinTester
